import Mathlib

/-
Shallow embedding of the dwi_ml direction-getter models, the generation
trainer and the transformer forward checks, together with theorems about
the behaviour of this code.

Sources embedded here:
  dwi_ml/models/direction_getter_models.py
  dwi_ml/models/projects/transforming_tractography.py
  dwi_ml/training/projects/trainers_for_generation.py
-/

/-! ## Basic list argmax, following torch.argmax semantics
(index of the first maximal element). -/

/-- Maximum of a list of rationals (0 on the empty list; callers guard). -/
def listMax : List ℚ → ℚ
  | [] => 0
  | [a] => a
  | a :: b :: rest => max a (listMax (b :: rest))

/-- torch.argmax on a 1-D tensor: the index of the first maximal element. -/
def argmaxIdx : List ℚ → Nat
  | [] => 0
  | [_] => 0
  | a :: b :: rest => if listMax (b :: rest) ≤ a then 0 else argmaxIdx (b :: rest) + 1

theorem listMax_is_max : ∀ (l : List ℚ), ∀ x ∈ l, x ≤ listMax l
  | [a], x, hx => by
      have h := List.mem_singleton.mp hx
      simp [listMax, h]
  | a :: b :: rest, x, hx => by
      rcases List.mem_cons.mp hx with h | h
      · simp [listMax, h]
      · have := listMax_is_max (b :: rest) x h
        simp only [listMax]
        exact le_max_of_le_right this

theorem argmaxIdx_lt_length : ∀ (l : List ℚ), l ≠ [] → argmaxIdx l < l.length
  | [a], _ => by simp [argmaxIdx]
  | a :: b :: rest, _ => by
      by_cases h : listMax (b :: rest) ≤ a
      · simp [argmaxIdx, h]
      · have ih := argmaxIdx_lt_length (b :: rest) (by simp)
        simp only [List.length_cons] at ih
        simp only [argmaxIdx, h, if_false, List.length_cons]
        omega

theorem argmaxIdx_getD_eq_max :
    ∀ (l : List ℚ), l ≠ [] → l.getD (argmaxIdx l) 0 = listMax l
  | [a], _ => by simp [argmaxIdx, listMax]
  | a :: b :: rest, _ => by
      by_cases h : listMax (b :: rest) ≤ a
      · simp [argmaxIdx, h, listMax, max_eq_left h]
      · have ih := argmaxIdx_getD_eq_max (b :: rest) (by simp)
        push_neg at h
        simp only [argmaxIdx, if_neg (not_le.mpr h), listMax, List.getD_cons_succ]
        rw [ih, max_eq_right (le_of_lt h)]

theorem argmaxIdx_first :
    ∀ (l : List ℚ), ∀ i < argmaxIdx l, l.getD i 0 < listMax l
  | [], i, hi => by simp [argmaxIdx] at hi
  | [a], i, hi => by simp [argmaxIdx] at hi
  | a :: b :: rest, i, hi => by
      by_cases h : listMax (b :: rest) ≤ a
      · simp [argmaxIdx, h] at hi
      · push_neg at h
        simp only [argmaxIdx, if_neg (not_le.mpr h)] at hi
        match i with
        | 0 =>
            simpa [listMax, max_eq_right (le_of_lt h)] using h
        | Nat.succ j =>
            have ih := argmaxIdx_first (b :: rest) j (by omega)
            simpa [listMax, max_eq_right (le_of_lt h)] using ih

/-- If the value at index `j` is strictly greater than the value at every
other index, then the first-max argmax is exactly `j`. -/
theorem argmaxIdx_eq_of_strict_max (l : List ℚ) (j : Nat) (hj : j < l.length)
    (hstrict : ∀ i < l.length, i ≠ j → l.getD i 0 < l.getD j 0) :
    argmaxIdx l = j := by
  have hne : l ≠ [] := by
    intro h; subst h; simp at hj
  have hk := argmaxIdx_lt_length l hne
  by_contra hkj
  have h1 : l.getD (argmaxIdx l) 0 < l.getD j 0 := hstrict _ hk hkj
  have h2 : l.getD j 0 ≤ listMax l := by
    apply listMax_is_max
    rw [List.getD_eq_getElem l 0 hj]
    exact List.getElem_mem hj
  rw [argmaxIdx_getD_eq_max l hne] at h1
  exact absurd (lt_of_le_of_lt h2 h1) (lt_irrefl _)

/-! ## 3D vectors with rational coordinates (classification-side models) -/

structure Vec3Q where
  x : ℚ
  y : ℚ
  z : ℚ
deriving DecidableEq, Repr

/-- Dot product of two 3D vectors. -/
def dotQ (u v : Vec3Q) : ℚ := u.x * v.x + u.y * v.y + u.z * v.z

/-- Squared Euclidean norm. -/
def normSqQ (u : Vec3Q) : ℚ := dotQ u u

/-! ## SphereClassificationDirectionGetter -/

namespace SphereClassificationDirectionGetter

/-- One row of `torch.matmul(directions, self.vertices.t())`: the cosine
similarity (plain dot product) of one direction with every sphere vertex. -/
def similarity_row (vertices : List Vec3Q) (d : Vec3Q) : List ℚ :=
  vertices.map (fun v => dotQ d v)

/-- `_find_closest_vertex`: per direction, the index of the vertex of maximal
dot product, via `torch.argmax(cosine_similarity, dim=-1)` (first maximal
index on ties). -/
def find_closest_vertex (vertices : List Vec3Q) (directions : List Vec3Q) :
    List Nat :=
  directions.map (fun d => argmaxIdx (similarity_row vertices d))

/-- `get_tracking_direction_det`: the source computes
`self.vertices[logits_per_class.argmax()]`, where `.argmax()` without a `dim`
argument is the argmax over the FLATTENED tensor; the resulting flat index is
then used to index the `[C, 3]` vertex table (out of bounds gives an
IndexError, modelled as `none`). -/
def get_tracking_direction_det (vertices : List Vec3Q)
    (logits_per_class : List (List ℚ)) : Option Vec3Q :=
  vertices.get? (argmaxIdx logits_per_class.flatten)

/-- The behaviour the spec describes for `get_tracking_direction_det`:
row-wise argmax, one vertex per batch element. -/
def get_tracking_direction_det_rowwise (vertices : List Vec3Q)
    (logits_per_class : List (List ℚ)) : Option (List Vec3Q) :=
  logits_per_class.mapM (fun row => vertices.get? (argmaxIdx row))

end SphereClassificationDirectionGetter

/-- C2: evaluation of the code on a concrete batch. With two unit vertices
and logits `[[0, 1], [2, 0]]` (batch size 2), the row-wise argmax direction
described by the claim is `[(0,1,0), (1,0,0)]`, but the code flattens the
logits, takes the single global argmax index 2 and indexes the two-row vertex
table out of bounds (IndexError, modelled as `none`), so it never produces
the claimed `[B, 3]` result. -/
theorem claim_C2_code_eval :
    SphereClassificationDirectionGetter.get_tracking_direction_det
        [⟨1, 0, 0⟩, ⟨0, 1, 0⟩] [[0, 1], [2, 0]] = none
    ∧ SphereClassificationDirectionGetter.get_tracking_direction_det_rowwise
        [⟨1, 0, 0⟩, ⟨0, 1, 0⟩] [[0, 1], [2, 0]]
        = some [⟨0, 1, 0⟩, ⟨1, 0, 0⟩] := by
  constructor <;> rfl

/-! ## C6 support: geometry of unit vectors and argmax over similarity rows -/

theorem dotQ_lt_one_of_unit_ne (u v : Vec3Q) (hu : normSqQ u = 1)
    (hv : normSqQ v = 1) (hne : u ≠ v) : dotQ u v < 1 := by
  rcases u with ⟨ux, uy, uz⟩
  rcases v with ⟨vx, vy, vz⟩
  simp only [normSqQ, dotQ] at hu hv
  simp only [dotQ]
  by_contra hcon
  push_neg at hcon
  have h1 : (ux - vx) ^ 2 ≤ 0 := by nlinarith [sq_nonneg (uy - vy), sq_nonneg (uz - vz)]
  have h2 : (uy - vy) ^ 2 ≤ 0 := by nlinarith [sq_nonneg (ux - vx), sq_nonneg (uz - vz)]
  have h3 : (uz - vz) ^ 2 ≤ 0 := by nlinarith [sq_nonneg (ux - vx), sq_nonneg (uy - vy)]
  have ex : ux = vx := by nlinarith [sq_nonneg (ux - vx)]
  have ey : uy = vy := by nlinarith [sq_nonneg (uy - vy)]
  have ez : uz = vz := by nlinarith [sq_nonneg (uz - vz)]
  exact hne (by simp [ex, ey, ez])

theorem similarity_row_length (vertices : List Vec3Q) (d : Vec3Q) :
    (SphereClassificationDirectionGetter.similarity_row vertices d).length
      = vertices.length := by
  simp [SphereClassificationDirectionGetter.similarity_row]

theorem similarity_row_getD (vertices : List Vec3Q) (d : Vec3Q) (j : Nat)
    (hj : j < vertices.length) :
    (SphereClassificationDirectionGetter.similarity_row vertices d).getD j 0
      = dotQ d (vertices.getD j ⟨0, 0, 0⟩) := by
  have hj2 : j < (SphereClassificationDirectionGetter.similarity_row vertices d).length := by
    simpa [similarity_row_length] using hj
  rw [List.getD_eq_getElem _ _ hj2, List.getD_eq_getElem _ _ hj]
  simp [SphereClassificationDirectionGetter.similarity_row]

/-- C6: the nearest-vertex lookup. First part: for any nonempty vertex table
and any direction batch, each returned index is in range, attains the maximal
dot product with its direction, and every earlier index has a strictly
smaller dot product (first-maximum tie-break). Second part: when the vertices
are unit vectors and pairwise distinct, a direction equal to the j-th vertex
is mapped to index j itself. -/
theorem claim_C6_find_closest_vertex :
    (∀ (vertices directions : List Vec3Q), vertices ≠ [] →
      ∀ i, i < directions.length →
        (SphereClassificationDirectionGetter.find_closest_vertex vertices
            directions).getD i 0 < vertices.length
        ∧ (∀ j, j < vertices.length →
            dotQ (directions.getD i ⟨0, 0, 0⟩) (vertices.getD j ⟨0, 0, 0⟩)
              ≤ dotQ (directions.getD i ⟨0, 0, 0⟩)
                  (vertices.getD ((SphereClassificationDirectionGetter.find_closest_vertex
                      vertices directions).getD i 0) ⟨0, 0, 0⟩))
        ∧ (∀ j, j < (SphereClassificationDirectionGetter.find_closest_vertex vertices
              directions).getD i 0 →
            dotQ (directions.getD i ⟨0, 0, 0⟩) (vertices.getD j ⟨0, 0, 0⟩)
              < dotQ (directions.getD i ⟨0, 0, 0⟩)
                  (vertices.getD ((SphereClassificationDirectionGetter.find_closest_vertex
                      vertices directions).getD i 0) ⟨0, 0, 0⟩)))
    ∧ (∀ vertices : List Vec3Q, (∀ v ∈ vertices, normSqQ v = 1) → vertices.Nodup →
        ∀ j, j < vertices.length →
          SphereClassificationDirectionGetter.find_closest_vertex vertices
              [vertices.getD j ⟨0, 0, 0⟩] = [j]) := by
  have hrow_ne : ∀ (vertices : List Vec3Q) (d : Vec3Q), vertices ≠ [] →
      SphereClassificationDirectionGetter.similarity_row vertices d ≠ [] := by
    intro vertices d hv
    simpa [SphereClassificationDirectionGetter.similarity_row] using hv
  have hgetD : ∀ (vertices directions : List Vec3Q) (i : Nat),
      i < directions.length →
      (SphereClassificationDirectionGetter.find_closest_vertex vertices
          directions).getD i 0
        = argmaxIdx (SphereClassificationDirectionGetter.similarity_row vertices
            (directions.getD i ⟨0, 0, 0⟩)) := by
    intro vertices directions i hi
    have hi2 : i < (SphereClassificationDirectionGetter.find_closest_vertex vertices
        directions).length := by
      simpa [SphereClassificationDirectionGetter.find_closest_vertex] using hi
    rw [List.getD_eq_getElem _ _ hi2, List.getD_eq_getElem _ _ hi]
    simp [SphereClassificationDirectionGetter.find_closest_vertex]
  constructor
  · intro vertices directions hv i hi
    set d := directions.getD i ⟨0, 0, 0⟩ with hd
    set row := SphereClassificationDirectionGetter.similarity_row vertices d with hrow
    have hne : row ≠ [] := hrow_ne vertices d hv
    have hklt : argmaxIdx row < vertices.length := by
      have := argmaxIdx_lt_length row hne
      simpa [hrow, similarity_row_length] using this
    have hmax : row.getD (argmaxIdx row) 0 = listMax row :=
      argmaxIdx_getD_eq_max row hne
    refine ⟨by rw [hgetD vertices directions i hi]; exact hklt, ?_, ?_⟩
    · intro j hj
      rw [hgetD vertices directions i hi]
      have hle : row.getD j 0 ≤ listMax row := by
        apply listMax_is_max
        have hj2 : j < row.length := by simpa [hrow, similarity_row_length] using hj
        rw [List.getD_eq_getElem _ _ hj2]
        exact List.getElem_mem hj2
      rw [← similarity_row_getD vertices d j hj,
          ← similarity_row_getD vertices d _ hklt, ← hrow]
      rw [hmax]
      exact hle
    · intro j hj
      rw [hgetD vertices directions i hi] at hj ⊢
      have hjlt : j < vertices.length := lt_trans hj hklt
      have hfirst := argmaxIdx_first row j hj
      rw [← similarity_row_getD vertices d j hjlt,
          ← similarity_row_getD vertices d _ hklt, ← hrow]
      rw [hmax]
      exact hfirst
  · intro vertices hunit hnodup j hj
    set d := vertices.getD j ⟨0, 0, 0⟩ with hd
    set row := SphereClassificationDirectionGetter.similarity_row vertices d with hrow
    have hrlen : row.length = vertices.length := by
      simp [hrow, similarity_row_length]
    have hdj : d ∈ vertices := by
      rw [hd, List.getD_eq_getElem _ _ hj]
      exact List.getElem_mem hj
    have hdu : normSqQ d = 1 := hunit d hdj
    have hstrict : ∀ i, i < row.length → i ≠ j → row.getD i 0 < row.getD j 0 := by
      intro i hi hij
      have hi2 : i < vertices.length := by rwa [hrlen] at hi
      rw [similarity_row_getD vertices d i hi2, similarity_row_getD vertices d j hj]
      have hvi : vertices.getD i ⟨0, 0, 0⟩ ∈ vertices := by
        rw [List.getD_eq_getElem _ _ hi2]; exact List.getElem_mem hi2
      have hvne : vertices.getD i ⟨0, 0, 0⟩ ≠ d := by
        rw [hd, List.getD_eq_getElem _ _ hi2, List.getD_eq_getElem _ _ hj]
        intro hcon
        exact hij (List.Nodup.getElem_inj_iff hnodup |>.mp hcon)
      have hlt : dotQ d (vertices.getD i ⟨0, 0, 0⟩) < 1 := by
        have h := dotQ_lt_one_of_unit_ne d (vertices.getD i ⟨0, 0, 0⟩) hdu
          (hunit _ hvi) (Ne.symm hvne)
        exact h
      have hself : dotQ d (vertices.getD j ⟨0, 0, 0⟩) = 1 := by rw [← hd]; exact hdu
      rw [hself]
      exact hlt
    have harg : argmaxIdx row = j :=
      argmaxIdx_eq_of_strict_max row j (by rwa [hrlen]) hstrict
    simp [SphereClassificationDirectionGetter.find_closest_vertex, ← hrow, harg, ← hd]

/-- Witness for C6: three distinct unit vertices; the direction equal to
vertex 1 is mapped back to index 1, and the in-range and maximality clauses
hold for a concrete batch. -/
theorem claim_C6_witness :
    SphereClassificationDirectionGetter.find_closest_vertex
        [⟨1, 0, 0⟩, ⟨0, 1, 0⟩, ⟨0, 0, 1⟩] [⟨0, 1, 0⟩] = [1]
    ∧ (SphereClassificationDirectionGetter.find_closest_vertex
        [⟨1, 0, 0⟩, ⟨0, 1, 0⟩, ⟨0, 0, 1⟩] [⟨3/5, 4/5, 0⟩]).getD 0 0 < 3 := by
  constructor
  · have h := claim_C6_find_closest_vertex.2
      [⟨1, 0, 0⟩, ⟨0, 1, 0⟩, ⟨0, 0, 1⟩]
      (by intro v hv; fin_cases hv <;> norm_num [normSqQ, dotQ]) (by decide) 1 (by decide)
    simpa using h
  · have h := (claim_C6_find_closest_vertex.1
      [⟨1, 0, 0⟩, ⟨0, 1, 0⟩, ⟨0, 0, 1⟩] [⟨3/5, 4/5, 0⟩]
      (by decide) 0 (by decide)).1
    simpa using h

/-! ## Gaussian heads: attribute registry and the forward pass

PyTorch registers each sub-module under the attribute name used in
`__init__`; reading a different attribute name in `forward` raises
AttributeError. The layer stacks themselves are kept abstract (type `a`),
since the failure happens before any arithmetic. -/

/-- Python attribute lookup on the registered sub-modules. -/
def module_getattr {a : Type} (modules : List (String × a)) (name : String) :
    Except String a :=
  match modules.lookup name with
  | some m => Except.ok m
  | none => Except.error ("AttributeError: " ++ name)

namespace SingleGaussianDirectionGetter

/-- The sub-modules registered by `SingleGaussianDirectionGetter.__init__`:
`self.layers_mean` and `self.layers_sigmas`. -/
def init_modules {a : Type} (layers_mean layers_sigmas : a) : List (String × a) :=
  [("layers_mean", layers_mean), ("layers_sigmas", layers_sigmas)]

/-- `SingleGaussianDirectionGetter.forward`: reads `self.layers_mean`, then
`self.layers_sigma` (as spelled in the source), applies the layer loop to
each and exponentiates the sigma head output. -/
def forward {a b c : Type} (modules : List (String × a))
    (loop_on_layers : a → b → c) (tensor_exp : c → c) (inputs : b) :
    Except String (c × c) := do
  let lm ← module_getattr modules "layers_mean"
  let means := loop_on_layers lm inputs
  let ls ← module_getattr modules "layers_sigma"
  let log_sigmas := loop_on_layers ls inputs
  let sigmas := tensor_exp log_sigmas
  Except.ok (means, sigmas)

end SingleGaussianDirectionGetter

namespace GaussianMixtureDirectionGetter

/-- The sub-modules registered by `GaussianMixtureDirectionGetter.__init__`:
`self.layers_mixture`, `self.layers_mean` and `self.layers_sigmas`. -/
def init_modules {a : Type} (layers_mixture layers_mean layers_sigmas : a) :
    List (String × a) :=
  [("layers_mixture", layers_mixture), ("layers_mean", layers_mean),
   ("layers_sigmas", layers_sigmas)]

/-- `GaussianMixtureDirectionGetter.forward`: reads `self.layers_mixture`,
`self.layers_mean`, then `self.layers_sigma` (as spelled in the source). -/
def forward {a b c : Type} (modules : List (String × a))
    (loop_on_layers : a → b → c) (tensor_exp : c → c) (inputs : b) :
    Except String (c × c × c) := do
  let lmix ← module_getattr modules "layers_mixture"
  let mixture_logits := loop_on_layers lmix inputs
  let lm ← module_getattr modules "layers_mean"
  let means := loop_on_layers lm inputs
  let ls ← module_getattr modules "layers_sigma"
  let log_sigmas := loop_on_layers ls inputs
  let sigmas := tensor_exp log_sigmas
  Except.ok (mixture_logits, means, sigmas)

end GaussianMixtureDirectionGetter

/-- C1: evaluation of the code. For every choice of layer weights, layer
semantics and input batch, the forward pass of the single-Gaussian head and
of the Gaussian-mixture head raises AttributeError instead of returning the
parameter tuple: `__init__` registers the sigma stack as `layers_sigmas`
while `forward` reads `self.layers_sigma`. -/
theorem claim_C1_code_eval :
    ∀ (a b c : Type) (lmix lm ls : a) (loop_on_layers : a → b → c)
      (tensor_exp : c → c) (inputs : b),
      SingleGaussianDirectionGetter.forward
          (SingleGaussianDirectionGetter.init_modules lm ls)
          loop_on_layers tensor_exp inputs
        = Except.error "AttributeError: layers_sigma"
      ∧ GaussianMixtureDirectionGetter.forward
          (GaussianMixtureDirectionGetter.init_modules lmix lm ls)
          loop_on_layers tensor_exp inputs
        = Except.error "AttributeError: layers_sigma" := by
  intro a b c lmix lm ls loop_on_layers tensor_exp inputs
  constructor <;> rfl

/-! ## Unsupported operations per family (C5) -/

namespace CosineRegressionDirectionGetter

/-- `CosineRegressionDirectionGetter.sample_tracking_direction_prob` raises
NotImplementedError. -/
def sample_tracking_direction_prob {a b : Type} (learned_directions : a) :
    Except String b :=
  Except.error
    "NotImplementedError: This regression model does not support probabilistic tractography."

/-- `CosineRegressionDirectionGetter.get_tracking_direction_det` returns the
learned directions unchanged. -/
def get_tracking_direction_det {a : Type} (learned_directions : a) : a :=
  learned_directions

end CosineRegressionDirectionGetter

namespace L2RegressionDirectionGetter

/-- `L2RegressionDirectionGetter.sample_tracking_direction_prob` raises
NotImplementedError. -/
def sample_tracking_direction_prob {a b : Type} (learned_directions : a) :
    Except String b :=
  Except.error
    "NotImplementedError: This regression model does not support probabilistic tractography."

/-- `L2RegressionDirectionGetter.get_tracking_direction_det` returns the
learned directions unchanged. -/
def get_tracking_direction_det {a : Type} (learned_directions : a) : a :=
  learned_directions

end L2RegressionDirectionGetter

namespace SingleGaussianDirectionGetter

/-- `SingleGaussianDirectionGetter.get_tracking_direction_det` raises
NotImplementedError (marked toDo in the source). -/
def get_tracking_direction_det {a b : Type} (learned_gaussian_params : a) :
    Except String b :=
  Except.error "NotImplementedError"

end SingleGaussianDirectionGetter

namespace GaussianMixtureDirectionGetter

/-- `GaussianMixtureDirectionGetter.get_tracking_direction_det` raises
NotImplementedError (marked toDo in the source). -/
def get_tracking_direction_det {a b : Type} (learned_gaussian_params : a) :
    Except String b :=
  Except.error "NotImplementedError"

end GaussianMixtureDirectionGetter

namespace FisherVonMisesDirectionGetter

/-- `FisherVonMisesDirectionGetter.get_tracking_direction_det` raises
NotImplementedError (marked toDo in the source). -/
def get_tracking_direction_det {a b : Type} (learned_fisher_params : a) :
    Except String b :=
  Except.error "NotImplementedError"

end FisherVonMisesDirectionGetter

/-- C5: for every input, `sample_tracking_direction_prob` on the two
deterministic regression families and `get_tracking_direction_det` on the
single-Gaussian, Gaussian-mixture and Fisher-von-Mises families raise an
explicit unsupported-operation error (NotImplementedError) and never return
a direction. -/
theorem claim_C5_unsupported_operations :
    ∀ (a b : Type) (outputs : a),
      CosineRegressionDirectionGetter.sample_tracking_direction_prob outputs
        = (Except.error
            "NotImplementedError: This regression model does not support probabilistic tractography."
            : Except String b)
      ∧ L2RegressionDirectionGetter.sample_tracking_direction_prob outputs
        = (Except.error
            "NotImplementedError: This regression model does not support probabilistic tractography."
            : Except String b)
      ∧ SingleGaussianDirectionGetter.get_tracking_direction_det outputs
        = (Except.error "NotImplementedError" : Except String b)
      ∧ GaussianMixtureDirectionGetter.get_tracking_direction_det outputs
        = (Except.error "NotImplementedError" : Except String b)
      ∧ FisherVonMisesDirectionGetter.get_tracking_direction_det outputs
        = (Except.error "NotImplementedError" : Except String b) := by
  intro a b outputs
  exact ⟨rfl, rfl, rfl, rfl, rfl⟩

/-! ## Direction-getter registry (C10) -/

/-- Common state built by `AbstractDirectionGetterModel.__init__`. -/
structure DGBase where
  input_size : Nat
  dropout : Option ℚ
  key : String
  supports_compressed_streamlines : Bool
  loss_description : String
deriving DecidableEq, Repr

/-- The dropout validation of `AbstractDirectionGetterModel.__init__`:
`if dropout and (dropout < 0 or dropout > 1)` (a 0.0 or None rate is falsy
and skips the check). -/
def dropout_invalid (dropout : Option ℚ) : Bool :=
  match dropout with
  | none => false
  | some v => v != 0 && (v < 0 || v > 1)

/-- `AbstractDirectionGetterModel.__init__`: validates the dropout rate,
then stores the family information. -/
def abstract_dg_init (input_size : Nat) (dropout : Option ℚ) (key : String)
    (supports_compressed_streamlines : Bool) (loss_description : String) :
    Except String DGBase :=
  if dropout_invalid dropout then
    Except.error "Dropout rate should be between 0 and 1."
  else
    Except.ok ⟨input_size, dropout, key, supports_compressed_streamlines,
      loss_description⟩

/-- `CosineRegressionDirectionGetter.__init__`. -/
def CosineRegressionDirectionGetter.init (input_size : Nat)
    (dropout : Option ℚ) : Except String DGBase :=
  abstract_dg_init input_size dropout "cosine-regression" false
    "negative cosine similarity"

/-- `L2RegressionDirectionGetter.__init__`. -/
def L2RegressionDirectionGetter.init (input_size : Nat) (dropout : Option ℚ) :
    Except String DGBase :=
  abstract_dg_init input_size dropout "l2-regression" true
    "pairwise distance from torch"

/-- `SphereClassificationDirectionGetter.__init__` (the sphere argument only
selects the vertex table and does not affect the stored family key). -/
def SphereClassificationDirectionGetter.init (input_size : Nat)
    (dropout : Option ℚ) (sphere : String) : Except String DGBase :=
  abstract_dg_init input_size dropout "sphere-classification" false
    "negative log-likelihood"

/-- `SingleGaussianDirectionGetter.__init__`. -/
def SingleGaussianDirectionGetter.init (input_size : Nat)
    (dropout : Option ℚ) : Except String DGBase :=
  abstract_dg_init input_size dropout "gaussian" true "negative log-likelihood"

/-- `GaussianMixtureDirectionGetter.__init__`. -/
def GaussianMixtureDirectionGetter.init (input_size : Nat)
    (dropout : Option ℚ) (nb_gaussians : Nat) : Except String DGBase :=
  abstract_dg_init input_size dropout "gaussian-mixture" true
    "negative log-likelihood"

/-- `FisherVonMisesDirectionGetter.__init__`. -/
def FisherVonMisesDirectionGetter.init (input_size : Nat)
    (dropout : Option ℚ) : Except String DGBase :=
  abstract_dg_init input_size dropout "fisher-von-mises" false
    "negative log-likelihood"

/-- `FisherVonMisesMixtureDirectionGetter.__init__`: runs the abstract
initialization, then unconditionally raises NotImplementedError (stub). -/
def FisherVonMisesMixtureDirectionGetter.init (input_size : Nat)
    (dropout : Option ℚ) (n_cluster : Nat) : Except String DGBase :=
  match abstract_dg_init input_size dropout "fisher-von-mises-mixture" false
      "negative log-likelihood" with
  | Except.error e => Except.error e
  | Except.ok _ => Except.error "NotImplementedError"

/-- The registry `keys_to_direction_getters` (default constructor arguments
baked in: sphere symmetric724, 3 Gaussians, 3 clusters). -/
def keys_to_direction_getters :
    List (String × (Nat → Option ℚ → Except String DGBase)) :=
  [("cosine-regression", CosineRegressionDirectionGetter.init),
   ("l2-regression", L2RegressionDirectionGetter.init),
   ("sphere-classification",
      fun i d => SphereClassificationDirectionGetter.init i d "symmetric724"),
   ("gaussian", SingleGaussianDirectionGetter.init),
   ("gaussian-mixture", fun i d => GaussianMixtureDirectionGetter.init i d 3),
   ("fisher-von-mises", FisherVonMisesDirectionGetter.init),
   ("fisher-von-mises-mixture",
      fun i d => FisherVonMisesMixtureDirectionGetter.init i d 3)]

/-- C10: the registry round-trips its keys. For every registry entry with a
valid dropout rate: every key other than fisher-von-mises-mixture constructs
a head whose stored key equals the registry key, while the
fisher-von-mises-mixture entry always raises the unimplemented-stub error,
so it never produces a usable head. -/
theorem claim_C10_registry_roundtrip :
    ∀ (k : String) (ctor : Nat → Option ℚ → Except String DGBase),
      (k, ctor) ∈ keys_to_direction_getters →
      ∀ (input_size : Nat) (dropout : Option ℚ),
        dropout_invalid dropout = false →
        (k ≠ "fisher-von-mises-mixture" →
          ∃ h : DGBase, ctor input_size dropout = Except.ok h ∧ h.key = k)
        ∧ (k = "fisher-von-mises-mixture" →
          ctor input_size dropout = Except.error "NotImplementedError") := by
  intro k ctor hmem input_size dropout hdrop
  simp only [keys_to_direction_getters, List.mem_cons, List.mem_singleton,
    Prod.mk.injEq, List.not_mem_nil, or_false] at hmem
  rcases hmem with ⟨hk, hc⟩ | ⟨hk, hc⟩ | ⟨hk, hc⟩ | ⟨hk, hc⟩ | ⟨hk, hc⟩
    | ⟨hk, hc⟩ | ⟨hk, hc⟩ <;> subst hk <;> subst hc
  · exact ⟨fun _ => ⟨⟨input_size, dropout, "cosine-regression", false,
      "negative cosine similarity"⟩,
      by simp [CosineRegressionDirectionGetter.init, abstract_dg_init, hdrop],
      rfl⟩, fun hk => by simp at hk⟩
  · exact ⟨fun _ => ⟨⟨input_size, dropout, "l2-regression", true,
      "pairwise distance from torch"⟩,
      by simp [L2RegressionDirectionGetter.init, abstract_dg_init, hdrop],
      rfl⟩, fun hk => by simp at hk⟩
  · exact ⟨fun _ => ⟨⟨input_size, dropout, "sphere-classification", false,
      "negative log-likelihood"⟩,
      by simp [SphereClassificationDirectionGetter.init, abstract_dg_init, hdrop],
      rfl⟩, fun hk => by simp at hk⟩
  · exact ⟨fun _ => ⟨⟨input_size, dropout, "gaussian", true,
      "negative log-likelihood"⟩,
      by simp [SingleGaussianDirectionGetter.init, abstract_dg_init, hdrop],
      rfl⟩, fun hk => by simp at hk⟩
  · exact ⟨fun _ => ⟨⟨input_size, dropout, "gaussian-mixture", true,
      "negative log-likelihood"⟩,
      by simp [GaussianMixtureDirectionGetter.init, abstract_dg_init, hdrop],
      rfl⟩, fun hk => by simp at hk⟩
  · exact ⟨fun _ => ⟨⟨input_size, dropout, "fisher-von-mises", false,
      "negative log-likelihood"⟩,
      by simp [FisherVonMisesDirectionGetter.init, abstract_dg_init, hdrop],
      rfl⟩, fun hk => by simp at hk⟩
  · exact ⟨fun hne => absurd rfl hne, fun _ => by
      simp [FisherVonMisesMixtureDirectionGetter.init, abstract_dg_init, hdrop]⟩

/-- Witness for C10: the gaussian entry with default (None) dropout yields a
head whose key is gaussian, and the fisher-von-mises-mixture entry errors. -/
theorem claim_C10_witness :
    (∃ h : DGBase, SingleGaussianDirectionGetter.init 10 none = Except.ok h
        ∧ h.key = "gaussian")
    ∧ FisherVonMisesMixtureDirectionGetter.init 10 none 3
        = Except.error "NotImplementedError" := by
  constructor
  · exact (claim_C10_registry_roundtrip "gaussian"
      SingleGaussianDirectionGetter.init (by simp [keys_to_direction_getters])
      10 none rfl).1 (by simp)
  · exact (claim_C10_registry_roundtrip "fisher-von-mises-mixture"
      (fun i d => FisherVonMisesMixtureDirectionGetter.init i d 3)
      (by simp [keys_to_direction_getters]) 10 none rfl).2 rfl

/-! ## Generation trainer: checkpoint state restoration (C3) -/

/-- The per-epoch history monitor state that matters here. -/
structure BatchHistoryMonitor where
  current_epoch : Int
  average_per_epoch : List ℚ
deriving DecidableEq, Repr

/-- Modelled from the spec: `BatchHistoryMonitor.set_state` (defined in
dwi_ml/training/utils/monitoring.py, which is not part of the provided
sources) restores the monitor fields persisted in a checkpoint state. -/
def BatchHistoryMonitor.set_state (monitor state : BatchHistoryMonitor) :
    BatchHistoryMonitor :=
  state

/-- The `current_states` checkpoint dictionary entries used by
`DWIMLTrainerForTrackingOneInput._update_states_from_checkpoint`; `none`
models an absent dictionary key. -/
structure CurrentStates where
  tracking_valid_loss_monitor_state : Option BatchHistoryMonitor
  tracking_valid_IS_monitor_state : Option BatchHistoryMonitor

/-- The two monitors of the generation trainer touched by the resume code. -/
structure GenerationTrainerMonitors where
  tracking_valid_loss_monitor : BatchHistoryMonitor
  tracking_valid_IS_monitor : BatchHistoryMonitor
deriving DecidableEq, Repr

/-- `DWIMLTrainerForTrackingOneInput._update_states_from_checkpoint`:
restores the loss monitor from the checkpoint (KeyError when that entry is
absent), then UNCONDITIONALLY overwrites the invalid-streamline-ratio
monitor with `current_epoch = 149` and a 150-entry zero history; the call
that would restore `tracking_valid_IS_monitor_state` is commented out in the
source. -/
def update_states_from_checkpoint (t : GenerationTrainerMonitors)
    (current_states : CurrentStates) : Except String GenerationTrainerMonitors :=
  match current_states.tracking_valid_loss_monitor_state with
  | none => Except.error "KeyError: tracking_valid_loss_monitor_state"
  | some s =>
      let t1 : GenerationTrainerMonitors :=
        { t with tracking_valid_loss_monitor :=
            t.tracking_valid_loss_monitor.set_state s }
      Except.ok
        { t1 with tracking_valid_IS_monitor :=
            { t1.tracking_valid_IS_monitor with
                current_epoch := 149,
                average_per_epoch := List.replicate 150 0 } }

/-- C3: evaluation of the code. Even when the checkpoint DOES contain the
expected invalid-streamline-ratio monitor state (here: epoch 5, history
[1, 2, 3]), the resume code replaces the monitor by the padded placeholder
history (epoch 149, 150 zero entries) instead of restoring it; the claimed
conditional restoration does not exist in the code. -/
theorem claim_C3_code_eval :
    update_states_from_checkpoint ⟨⟨0, []⟩, ⟨0, []⟩⟩
        ⟨some ⟨2, [4]⟩, some ⟨5, [1, 2, 3]⟩⟩
      = Except.ok ⟨⟨2, [4]⟩, ⟨149, List.replicate 150 0⟩⟩
    ∧ (⟨149, List.replicate 150 0⟩ : BatchHistoryMonitor)
      ≠ BatchHistoryMonitor.set_state ⟨0, []⟩ ⟨5, [1, 2, 3]⟩ := by
  constructor
  · rfl
  · simp [BatchHistoryMonitor.set_state]

/-! ## Transformer forward length check (C8) -/

/-- `forward_padding`: `pad(data, (0, 0, 0, expected_length - len(data)))`,
appending zero rows at the end of one sequence. -/
def forward_padding {a : Type} (zero_row : a) (data : List a)
    (expected_length : Nat) : List a :=
  data ++ List.replicate (expected_length - data.length) zero_row

/-- `pad_and_stack_batch`: pads every sequence to `pad_length` (skipped when
`pad_first` is false, i.e. when all sequences already have equal length). -/
def pad_and_stack_batch {a : Type} (zero_row : a) (data : List (List a))
    (pad_first : Bool) (pad_length : Nat) : List (List a) :=
  if pad_first then data.map (fun d => forward_padding zero_row d pad_length)
  else data

/-- The entry checks and the padding step of
`AbstractTransformerModel.forward`: context check, the length assert, the
max-length check (`np.any(unpad_lengths > self.max_len)` raising
ValueError), then padding to the batch maximum. The later transformer layers
act on the padded batch and are irrelevant to the length contract. -/
def transformer_forward_checks {a p : Type} (zero_row : a)
    (context : Option String) (max_len : Nat) (inputs : List (List a))
    (input_streamlines : List (List p)) : Except String (List (List a)) :=
  if context.isNone then
    Except.error "Please set context before usage."
  else if !((inputs.zip input_streamlines).all
      (fun pair => pair.1.length == pair.2.length)) then
    Except.error "AssertionError"
  else
    let unpad_lengths := inputs.map List.length
    if unpad_lengths.any (fun l => max_len < l) then
      Except.error
        "Some streamlines were longer than accepted max length for sequences"
    else
      let use_padding := !(unpad_lengths.all
        (fun l => l == unpad_lengths.headD 0))
      let batch_max_len := unpad_lengths.foldr max 0
      Except.ok (pad_and_stack_batch zero_row inputs use_padding batch_max_len)

/-- C8: if any input sequence is longer than `max_len`, the forward pass
raises the explicit ValueError before any processing; and whenever the
checks pass, every sequence survives as a prefix of its padded row, never
truncated. -/
theorem claim_C8_max_len_fatal :
    ∀ (a p : Type) (zero_row : a) (c : String) (max_len : Nat)
      (inputs : List (List a)) (input_streamlines : List (List p)),
      ((inputs.zip input_streamlines).all
        (fun pair => pair.1.length == pair.2.length)) = true →
      ((∃ s ∈ inputs, max_len < s.length) →
        transformer_forward_checks zero_row (some c) max_len inputs
            input_streamlines
          = Except.error
            "Some streamlines were longer than accepted max length for sequences")
      ∧ (∀ out, transformer_forward_checks zero_row (some c) max_len inputs
            input_streamlines = Except.ok out →
          ∀ i, i < inputs.length →
            ∃ tail, out.getD i [] = inputs.getD i [] ++ tail) := by
  intro a p zero_row c max_len inputs input_streamlines hassert
  constructor
  · intro hlong
    have hany : (inputs.map List.length).any (fun l => max_len < l) = true := by
      rcases hlong with ⟨s, hs, hlen⟩
      refine List.any_eq_true.mpr ?_
      exact ⟨s.length, List.mem_map_of_mem List.length hs, by simpa using hlen⟩
    simp [transformer_forward_checks, hassert, hany]
  · intro out hout i hi
    by_cases hany : ((inputs.map List.length).any (fun l => max_len < l)) = true
    · rw [transformer_forward_checks] at hout
      simp [hassert, hany] at hout
    · have hany2 : ((inputs.map List.length).any (fun l => max_len < l)) = false := by
        simpa using hany
      rw [transformer_forward_checks] at hout
      simp only [Option.isNone_some, Bool.false_eq_true, if_false, hassert,
        Bool.not_true, hany2, Except.ok.injEq] at hout
      subst hout
      by_cases hpad : (!((inputs.map List.length).all
          (fun l => l == (inputs.map List.length).headD 0))) = true
      · have hi2 : i < (inputs.map
            (fun d => forward_padding zero_row d
              ((inputs.map List.length).foldr max 0))).length := by
          simpa using hi
        refine ⟨List.replicate (((inputs.map List.length).foldr max 0)
          - (inputs.getD i []).length) zero_row, ?_⟩
        simp only [pad_and_stack_batch, hpad, if_true]
        rw [List.getD_eq_getElem _ _ hi2, List.getD_eq_getElem _ _ hi]
        simp [forward_padding]
      · have hpad2 : (!((inputs.map List.length).all
            (fun l => l == (inputs.map List.length).headD 0))) = false := by
          simpa using hpad
        refine ⟨[], ?_⟩
        simp only [pad_and_stack_batch, hpad2, Bool.false_eq_true, if_false]
        simp

/-- Witness for C8: a two-streamline batch where the second sequence exceeds
the configured maximum length of 1, so the forward pass fails with the
explicit ValueError. -/
theorem claim_C8_witness :
    transformer_forward_checks (0 : ℚ) (some "training") 1
        [[1], [2, 3]] [[(0 : ℚ)], [0, 0]]
      = Except.error
        "Some streamlines were longer than accepted max length for sequences" := by
  exact (claim_C8_max_len_fatal ℚ ℚ 0 "training" 1 [[1], [2, 3]]
    [[0], [0, 0]] (by decide)).1 ⟨[2, 3], by simp, by simp⟩

/-! ## 3D vectors with real coordinates (distribution-math models) -/

structure Vec3R where
  x : ℝ
  y : ℝ
  z : ℝ

/-- Dot product. -/
def dotR (u v : Vec3R) : ℝ := u.x * v.x + u.y * v.y + u.z * v.z

/-- Squared Euclidean norm. -/
def normSqR (u : Vec3R) : ℝ := dotR u u

/-- `np.linalg.norm`. -/
noncomputable def normR (u : Vec3R) : ℝ := Real.sqrt (normSqR u)

/-- Componentwise sum. -/
def addR (u v : Vec3R) : Vec3R := ⟨u.x + v.x, u.y + v.y, u.z + v.z⟩

/-- Componentwise difference. -/
def subR (u v : Vec3R) : Vec3R := ⟨u.x - v.x, u.y - v.y, u.z - v.z⟩

/-- Scalar multiple. -/
def smulR (a : ℝ) (u : Vec3R) : Vec3R := ⟨a * u.x, a * u.y, a * u.z⟩

theorem normSqR_nonneg (u : Vec3R) : 0 ≤ normSqR u := by
  rcases u with ⟨x, y, z⟩
  simp only [normSqR, dotR]
  nlinarith [mul_self_nonneg x, mul_self_nonneg y, mul_self_nonneg z]

theorem normSqR_pos_of_ne_zero (u : Vec3R) (h : u ≠ ⟨0, 0, 0⟩) :
    0 < normSqR u := by
  rcases u with ⟨x, y, z⟩
  rcases lt_or_eq_of_le (normSqR_nonneg ⟨x, y, z⟩) with hlt | heq
  · exact hlt
  · exfalso
    apply h
    simp only [normSqR, dotR] at heq
    have hx : x = 0 := by nlinarith [sq_nonneg x, sq_nonneg y, sq_nonneg z]
    have hy : y = 0 := by nlinarith [sq_nonneg x, sq_nonneg y, sq_nonneg z]
    have hz : z = 0 := by nlinarith [sq_nonneg x, sq_nonneg y, sq_nonneg z]
    simp [hx, hy, hz]

/-! ## FisherVonMisesDirectionGetter sampling (C9) -/

namespace FisherVonMisesDirectionGetter

/-- The constant `b = 2 / (sqrt(4 kappa^2 + 4) + 2 kappa)` from
`_sample_weight`. -/
noncomputable def sample_weight_b (kappa : ℝ) : ℝ :=
  2 / (Real.sqrt (4 * kappa ^ 2 + 4) + 2 * kappa)

/-- One candidate offset `w = (1 - (1 + b) z) / (1 - (1 - b) z)` from the
rejection loop of `_sample_weight`, where `z` is the Beta(1, 1) draw
(uniform on [0, 1]). Any returned (accepted) weight is of this form. -/
noncomputable def sample_weight_w (b z : ℝ) : ℝ :=
  (1 - (1 + b) * z) / (1 - (1 - b) * z)

/-- `_sample_orthonormal_to`, the tangential part before renormalization:
`proj_mu_v = mu * dot(mu, v) / norm(mu); orthto = v - proj_mu_v`. -/
noncomputable def orthto_part (mu v : Vec3R) : Vec3R :=
  subR v (smulR (dotR mu v / normR mu) mu)

/-- `_sample_orthonormal_to`: the tangential part renormalized,
`orthto / norm(orthto)`. -/
noncomputable def sample_orthonormal_to (mu v : Vec3R) : Vec3R :=
  smulR (1 / normR (orthto_part mu v)) (orthto_part mu v)

/-- The combination step of `sample_tracking_direction_prob`:
`result = v * sqrt(1 - w^2) + w * mu`. -/
noncomputable def sample_result (mu v : Vec3R) (w : ℝ) : Vec3R :=
  addR (smulR (Real.sqrt (1 - w ^ 2)) v) (smulR w mu)

theorem sample_weight_b_bounds (kappa : ℝ) (hkappa : 0 ≤ kappa) :
    0 < sample_weight_b kappa ∧ sample_weight_b kappa ≤ 1 := by
  have hsqrt4 : Real.sqrt 4 = 2 := by
    rw [show (4 : ℝ) = 2 ^ 2 by norm_num]
    exact Real.sqrt_sq (by norm_num)
  have hsqrt_ge : (2 : ℝ) ≤ Real.sqrt (4 * kappa ^ 2 + 4) := by
    rw [← hsqrt4]
    exact Real.sqrt_le_sqrt (by nlinarith)
  have hden_pos : (0 : ℝ) < Real.sqrt (4 * kappa ^ 2 + 4) + 2 * kappa := by
    nlinarith
  constructor
  · exact div_pos (by norm_num) hden_pos
  · rw [sample_weight_b, div_le_one hden_pos]
    nlinarith

theorem sample_weight_w_bounds (b z : ℝ) (hb0 : 0 < b) (hb1 : b ≤ 1)
    (hz0 : 0 ≤ z) (hz1 : z ≤ 1) :
    -1 ≤ sample_weight_w b z ∧ sample_weight_w b z ≤ 1 := by
  have hden : 0 < 1 - (1 - b) * z := by nlinarith
  constructor
  · rw [sample_weight_w, le_div_iff₀ hden]
    nlinarith
  · rw [sample_weight_w, div_le_one hden]
    nlinarith

theorem orthto_part_orthogonal (mu g : Vec3R) (hmu : normSqR mu = 1) :
    dotR mu (orthto_part mu g) = 0 := by
  have hnorm_mu : normR mu = 1 := by rw [normR, hmu, Real.sqrt_one]
  rcases mu with ⟨mx, my, mz⟩
  rcases g with ⟨gx, gy, gz⟩
  simp only [normSqR, dotR] at hmu
  simp only [orthto_part, hnorm_mu, subR, smulR, dotR, div_one]
  linear_combination (-(mx * gx + my * gy + mz * gz)) * hmu

theorem sample_orthonormal_to_unit (mu g : Vec3R) (hmu : normSqR mu = 1)
    (horth : orthto_part mu g ≠ ⟨0, 0, 0⟩) :
    normSqR (sample_orthonormal_to mu g) = 1
    ∧ dotR mu (sample_orthonormal_to mu g) = 0 := by
  have hdot0 := orthto_part_orthogonal mu g hmu
  have hpos : 0 < normSqR (orthto_part mu g) :=
    normSqR_pos_of_ne_zero _ horth
  have hsq : normR (orthto_part mu g) * normR (orthto_part mu g)
      = normSqR (orthto_part mu g) :=
    Real.mul_self_sqrt (le_of_lt hpos)
  have hnpos : 0 < normR (orthto_part mu g) := Real.sqrt_pos.mpr hpos
  rw [sample_orthonormal_to]
  generalize hodef : orthto_part mu g = o at hdot0 hpos hsq hnpos
  generalize hrdef : normR o = r at hsq hnpos
  rcases o with ⟨ox, oy, oz⟩
  rcases mu with ⟨mx, my, mz⟩
  have hsum_pos : 0 < ox * ox + oy * oy + oz * oz := by
    simpa [normSqR, dotR] using hpos
  constructor
  · simp only [normSqR, dotR, smulR]
    have hexp : 1 / r * ox * (1 / r * ox) + 1 / r * oy * (1 / r * oy)
        + 1 / r * oz * (1 / r * oz)
        = (ox * ox + oy * oy + oz * oz) / (r * r) := by
      ring
    rw [hexp, hsq]
    exact div_self (ne_of_gt hsum_pos)
  · simp only [dotR, smulR] at hdot0 ⊢
    have hexp : mx * (1 / r * ox) + my * (1 / r * oy) + mz * (1 / r * oz)
        = (mx * ox + my * oy + mz * oz) / r := by
      ring
    rw [hexp, hdot0, zero_div]

theorem sample_result_unit (mu v : Vec3R) (w : ℝ) (hmu : normSqR mu = 1)
    (hv : normSqR v = 1) (horth : dotR mu v = 0) (hw0 : -1 ≤ w) (hw1 : w ≤ 1) :
    normSqR (sample_result mu v w) = 1 := by
  have hw_sq : Real.sqrt (1 - w ^ 2) * Real.sqrt (1 - w ^ 2) = 1 - w ^ 2 :=
    Real.mul_self_sqrt (by nlinarith)
  rw [sample_result]
  generalize hsdef : Real.sqrt (1 - w ^ 2) = s at hw_sq
  rcases mu with ⟨mx, my, mz⟩
  rcases v with ⟨vx, vy, vz⟩
  simp only [normSqR, dotR, addR, smulR] at hmu hv horth ⊢
  linear_combination (s * s) * hv + (2 * s * w) * horth + (w * w) * hmu + hw_sq

end FisherVonMisesDirectionGetter

/-- C9: every direction produced by the Fisher-von Mises sampler is a unit
vector. For a unit mean `mu`, any `kappa ≥ 0`, any uniform draw
`z ∈ [0, 1]` and any Gaussian draw `g` whose tangential part is nonzero:
the candidate offset `w` lies in [-1, 1] (hence so does the accepted one),
the auxiliary vector `v` is unit and orthogonal to `mu`, and the combined
sample `v sqrt(1 - w^2) + w mu` has squared norm exactly 1. -/
theorem claim_C9_sample_unit_norm :
    ∀ (kappa z : ℝ) (mu g : Vec3R),
      normSqR mu = 1 → 0 ≤ kappa → 0 ≤ z → z ≤ 1 →
      FisherVonMisesDirectionGetter.orthto_part mu g ≠ ⟨0, 0, 0⟩ →
      (-1 ≤ FisherVonMisesDirectionGetter.sample_weight_w
          (FisherVonMisesDirectionGetter.sample_weight_b kappa) z
        ∧ FisherVonMisesDirectionGetter.sample_weight_w
          (FisherVonMisesDirectionGetter.sample_weight_b kappa) z ≤ 1)
      ∧ normSqR (FisherVonMisesDirectionGetter.sample_orthonormal_to mu g) = 1
      ∧ dotR mu (FisherVonMisesDirectionGetter.sample_orthonormal_to mu g) = 0
      ∧ normSqR (FisherVonMisesDirectionGetter.sample_result mu
          (FisherVonMisesDirectionGetter.sample_orthonormal_to mu g)
          (FisherVonMisesDirectionGetter.sample_weight_w
            (FisherVonMisesDirectionGetter.sample_weight_b kappa) z)) = 1 := by
  intro kappa z mu g hmu hkappa hz0 hz1 horth
  obtain ⟨hb0, hb1⟩ :=
    FisherVonMisesDirectionGetter.sample_weight_b_bounds kappa hkappa
  obtain ⟨hw0, hw1⟩ :=
    FisherVonMisesDirectionGetter.sample_weight_w_bounds _ z hb0 hb1 hz0 hz1
  obtain ⟨hvunit, hvorth⟩ :=
    FisherVonMisesDirectionGetter.sample_orthonormal_to_unit mu g hmu horth
  exact ⟨⟨hw0, hw1⟩, hvunit, hvorth,
    FisherVonMisesDirectionGetter.sample_result_unit mu _ _ hmu hvunit hvorth
      hw0 hw1⟩

/-- Witness for C9: unit mean (1,0,0), kappa 0, uniform draw 1/2, Gaussian
draw (0,1,0); the resulting sample has squared norm 1. -/
theorem claim_C9_witness :
    normSqR (FisherVonMisesDirectionGetter.sample_result ⟨1, 0, 0⟩
      (FisherVonMisesDirectionGetter.sample_orthonormal_to ⟨1, 0, 0⟩ ⟨0, 1, 0⟩)
      (FisherVonMisesDirectionGetter.sample_weight_w
        (FisherVonMisesDirectionGetter.sample_weight_b 0) (1 / 2))) = 1 := by
  have h := claim_C9_sample_unit_norm 0 (1 / 2) ⟨1, 0, 0⟩ ⟨0, 1, 0⟩
    (by norm_num [normSqR, dotR]) le_rfl (by norm_num) (by norm_num)
    (by norm_num [FisherVonMisesDirectionGetter.orthto_part, subR, smulR,
      dotR, Vec3R.mk.injEq])
  exact h.2.2.2

/-! ## FisherVonMisesDirectionGetter forward (C7) -/

/-- `ceil(input_size / 2)`, the hidden size of `init_2layer_fully_connected`. -/
def ceil_half (n : Nat) : Nat := (n + 1) / 2

/-- One `torch.nn.Linear` layer: `W x + b`. -/
def linear_layer {m n : Nat} (W : Fin m → Fin n → ℝ) (b : Fin m → ℝ)
    (x : Fin n → ℝ) : Fin m → ℝ :=
  fun i => (∑ j, W i j * x j) + b i

/-- Componentwise ReLU. -/
def relu_vec {n : Nat} (x : Fin n → ℝ) : Fin n → ℝ :=
  fun i => max (x i) 0

/-- `loop_on_layers` for the 2-layer stacks built by
`init_2layer_fully_connected`: first layer, ReLU (the dropout sub-layer is
the identity when no dropout rate is set), then the last layer with no
activation. -/
def loop_on_layers {n m : Nat} (W1 : Fin (ceil_half n) → Fin n → ℝ)
    (b1 : Fin (ceil_half n) → ℝ) (W2 : Fin m → Fin (ceil_half n) → ℝ)
    (b2 : Fin m → ℝ) (inputs : Fin n → ℝ) : Fin m → ℝ :=
  linear_layer W2 b2 (relu_vec (linear_layer W1 b1 inputs))

/-- `torch.sigmoid`. -/
noncomputable def sigmoid (t : ℝ) : ℝ := 1 / (1 + Real.exp (-t))

/-- `torch.nn.functional.normalize(v, dim=-1)`:
`v / max(norm(v), eps)` with `eps = 1e-12`. -/
noncomputable def functional_normalize (v : Fin 3 → ℝ) : Fin 3 → ℝ :=
  fun i => v i / max (Real.sqrt (∑ j, v j ^ 2)) 1e-12

namespace FisherVonMisesDirectionGetter

/-- `FisherVonMisesDirectionGetter.forward` on one feature vector: the mean
head output normalized to the unit sphere, and
`kappa = sigmoid(raw) * 20` (the trailing dimension of the kappa head is
squeezed away). -/
noncomputable def forward {n : Nat}
    (Wm1 : Fin (ceil_half n) → Fin n → ℝ) (bm1 : Fin (ceil_half n) → ℝ)
    (Wm2 : Fin 3 → Fin (ceil_half n) → ℝ) (bm2 : Fin 3 → ℝ)
    (Wk1 : Fin (ceil_half n) → Fin n → ℝ) (bk1 : Fin (ceil_half n) → ℝ)
    (Wk2 : Fin 1 → Fin (ceil_half n) → ℝ) (bk2 : Fin 1 → ℝ)
    (inputs : Fin n → ℝ) : (Fin 3 → ℝ) × ℝ :=
  (functional_normalize (loop_on_layers Wm1 bm1 Wm2 bm2 inputs),
   sigmoid (loop_on_layers Wk1 bk1 Wk2 bk2 inputs 0) * 20)

end FisherVonMisesDirectionGetter

/-- C7 counterexample: with all-zero weights in the mean head (and any
input, here the zero feature vector of size 2), the raw mean output is the
zero vector, `normalize` divides it by the clamp value 1e-12 and returns
the zero vector again, whose squared norm is 0, not 1. So not every
returned mean vector is unit-norm. -/
theorem claim_C7_counterexample :
    (∑ i, ((FisherVonMisesDirectionGetter.forward (n := 2)
        (fun _ _ => 0) (fun _ => 0) (fun _ _ => 0) (fun _ => 0)
        (fun _ _ => 0) (fun _ => 0) (fun _ _ => 0) (fun _ => 0)
        (fun _ => 0)).1 i) ^ 2) = 0 := by
  have hmr : loop_on_layers (n := 2) (m := 3) (fun _ _ => 0) (fun _ => 0)
      (fun _ _ => 0) (fun _ => 0) (fun _ => 0) = fun _ => 0 := by
    funext i
    simp [loop_on_layers, linear_layer, relu_vec]
  have hnorm : (FisherVonMisesDirectionGetter.forward (n := 2)
      (fun _ _ => 0) (fun _ => 0) (fun _ _ => 0) (fun _ => 0)
      (fun _ _ => 0) (fun _ => 0) (fun _ _ => 0) (fun _ => 0)
      (fun _ => 0)).1 = functional_normalize (fun _ => 0) := by
    rw [FisherVonMisesDirectionGetter.forward, hmr]
  rw [hnorm]
  have hzero : functional_normalize (fun _ => 0) = fun _ => 0 := by
    funext i
    simp [functional_normalize]
  rw [hzero]
  simp

/-- C7 amended: for every network weight assignment and every input, the
returned concentration lies in [0, 20] (indeed strictly inside); and
whenever the raw (pre-normalization) mean head output has norm at least the
clamp value 1e-12 of `functional_normalize`, the returned mean vector has
squared norm exactly 1. A raw mean output of norm below 1e-12 (for
instance exactly zero, see the counterexample) is returned with norm
below 1 instead. -/
theorem claim_C7_forward_invariants :
    ∀ (n : Nat)
      (Wm1 : Fin (ceil_half n) → Fin n → ℝ) (bm1 : Fin (ceil_half n) → ℝ)
      (Wm2 : Fin 3 → Fin (ceil_half n) → ℝ) (bm2 : Fin 3 → ℝ)
      (Wk1 : Fin (ceil_half n) → Fin n → ℝ) (bk1 : Fin (ceil_half n) → ℝ)
      (Wk2 : Fin 1 → Fin (ceil_half n) → ℝ) (bk2 : Fin 1 → ℝ)
      (inputs : Fin n → ℝ),
      (0 ≤ (FisherVonMisesDirectionGetter.forward Wm1 bm1 Wm2 bm2 Wk1 bk1
          Wk2 bk2 inputs).2
        ∧ (FisherVonMisesDirectionGetter.forward Wm1 bm1 Wm2 bm2 Wk1 bk1
          Wk2 bk2 inputs).2 ≤ 20)
      ∧ ((1e-12 : ℝ) ≤ Real.sqrt (∑ j,
            (loop_on_layers Wm1 bm1 Wm2 bm2 inputs j) ^ 2) →
          (∑ i, ((FisherVonMisesDirectionGetter.forward Wm1 bm1 Wm2 bm2 Wk1
              bk1 Wk2 bk2 inputs).1 i) ^ 2) = 1) := by
  intro n Wm1 bm1 Wm2 bm2 Wk1 bk1 Wk2 bk2 inputs
  constructor
  · have hexp : 0 < Real.exp (-(loop_on_layers Wk1 bk1 Wk2 bk2 inputs 0)) :=
      Real.exp_pos _
    have hs0 : 0 < sigmoid (loop_on_layers Wk1 bk1 Wk2 bk2 inputs 0) := by
      rw [sigmoid]
      positivity
    have hs1 : sigmoid (loop_on_layers Wk1 bk1 Wk2 bk2 inputs 0) ≤ 1 := by
      rw [sigmoid, div_le_one (by positivity)]
      nlinarith
    constructor
    · show 0 ≤ sigmoid (loop_on_layers Wk1 bk1 Wk2 bk2 inputs 0) * 20
      nlinarith
    · show sigmoid (loop_on_layers Wk1 bk1 Wk2 bk2 inputs 0) * 20 ≤ 20
      nlinarith
  · intro hge
    have hS_nonneg : 0 ≤ ∑ j, (loop_on_layers Wm1 bm1 Wm2 bm2 inputs j) ^ 2 :=
      Finset.sum_nonneg (fun j _ => sq_nonneg _)
    set S := ∑ j, (loop_on_layers Wm1 bm1 Wm2 bm2 inputs j) ^ 2 with hSdef
    have hr_pos : 0 < Real.sqrt S := lt_of_lt_of_le (by norm_num) hge
    have hS_pos : 0 < S := by
      by_contra hc
      push_neg at hc
      have : S = 0 := le_antisymm hc hS_nonneg
      rw [this, Real.sqrt_zero] at hr_pos
      exact lt_irrefl _ hr_pos
    have hmax : max (Real.sqrt S) 1e-12 = Real.sqrt S :=
      max_eq_left hge
    have hr_sq : Real.sqrt S * Real.sqrt S = S := Real.mul_self_sqrt hS_nonneg
    show (∑ i, (functional_normalize (loop_on_layers Wm1 bm1 Wm2 bm2 inputs) i) ^ 2) = 1
    have hterm : ∀ i : Fin 3,
        (functional_normalize (loop_on_layers Wm1 bm1 Wm2 bm2 inputs) i) ^ 2
          = (loop_on_layers Wm1 bm1 Wm2 bm2 inputs i) ^ 2 / S := by
      intro i
      rw [functional_normalize]
      rw [← hSdef, hmax, div_pow]
      congr 1
      rw [sq]
      exact hr_sq
    rw [Finset.sum_congr rfl (fun i _ => hterm i), ← Finset.sum_div, ← hSdef]
    exact div_self (ne_of_gt hS_pos)

/-- Witness for C7 amended: input size 2, zero weights except the mean-head
output bias (1, 0, 0); the raw mean is (1, 0, 0) of norm 1 ≥ 1e-12, and the
returned mean has squared norm 1, while kappa lies in [0, 20]. -/
theorem claim_C7_witness :
    (0 ≤ (FisherVonMisesDirectionGetter.forward (n := 2)
        (fun _ _ => 0) (fun _ => 0) (fun _ _ => 0)
        (fun i => if i = 0 then 1 else 0)
        (fun _ _ => 0) (fun _ => 0) (fun _ _ => 0) (fun _ => 0)
        (fun _ => 0)).2
      ∧ (FisherVonMisesDirectionGetter.forward (n := 2)
        (fun _ _ => 0) (fun _ => 0) (fun _ _ => 0)
        (fun i => if i = 0 then 1 else 0)
        (fun _ _ => 0) (fun _ => 0) (fun _ _ => 0) (fun _ => 0)
        (fun _ => 0)).2 ≤ 20)
    ∧ (∑ i, ((FisherVonMisesDirectionGetter.forward (n := 2)
        (fun _ _ => 0) (fun _ => 0) (fun _ _ => 0)
        (fun i => if i = 0 then 1 else 0)
        (fun _ _ => 0) (fun _ => 0) (fun _ _ => 0) (fun _ => 0)
        (fun _ => 0)).1 i) ^ 2) = 1 := by
  have h := claim_C7_forward_invariants 2
    (fun _ _ => 0) (fun _ => 0) (fun _ _ => 0) (fun i => if i = 0 then 1 else 0)
    (fun _ _ => 0) (fun _ => 0) (fun _ _ => 0) (fun _ => 0) (fun _ => 0)
  refine ⟨h.1, h.2 ?_⟩
  have hmr : loop_on_layers (n := 2) (m := 3) (fun _ _ => 0) (fun _ => 0)
      (fun _ _ => 0) (fun i => if i = 0 then 1 else 0) (fun _ => 0)
      = fun i => if i = 0 then 1 else 0 := by
    funext i
    simp [loop_on_layers, linear_layer, relu_vec]
  rw [hmr]
  have hsum : (∑ j : Fin 3, (if j = 0 then (1 : ℝ) else 0) ^ 2) = 1 := by
    simp [Fin.sum_univ_three]
  rw [hsum, Real.sqrt_one]
  norm_num

/-! ## Tracking-validation scoring: generate_from_one_batch (C4) -/

/-- The fixed invalid-streamline threshold of `generate_from_one_batch`. -/
def IS_THRESHOLD : ℝ := 25.98

/-- The default `eps` of `torch.nn.PairwiseDistance`: the distance computed
is `norm(x1 - x2 + eps)`, with `eps` added to every component. -/
def pdist_eps : ℝ := 1e-6

/-- `torch.nn.PairwiseDistance(p=2)` on 3D points:
`sqrt(sum_i (x1_i - x2_i + eps)^2)`. -/
noncomputable def pairwise_distance (x1 x2 : Vec3R) : ℝ :=
  Real.sqrt ((x1.x - x2.x + pdist_eps) ^ 2 + (x1.y - x2.y + pdist_eps) ^ 2
    + (x1.z - x2.z + pdist_eps) ^ 2)

/-- The plain Euclidean distance the spec sentence speaks about (no eps). -/
noncomputable def euclidean_distance (x1 x2 : Vec3R) : ℝ :=
  Real.sqrt ((x1.x - x2.x) ^ 2 + (x1.y - x2.y) ^ 2 + (x1.z - x2.z) ^ 2)

/-- `torch.sum(loss > IS_THRESHOLD)`: how many per-line losses exceed the
threshold. -/
noncomputable def count_invalid : List ℝ → Nat
  | [] => 0
  | d :: rest => (if IS_THRESHOLD < d then 1 else 0) + count_invalid rest

/-- `torch.mean` of a 1-D list. -/
noncomputable def mean_list (l : List ℝ) : ℝ := l.sum / l.length

/-- `DWIMLTrainerForTrackingOneInput.generate_from_one_batch`: remember the
ground-truth final points, truncate each line to its first
`tracking_phase_nb_steps_init` points, let the propagation engine (an
external call, passed as a function) regenerate the lines, then compare
final points with `PairwiseDistance` and report
`(mean loss, number of lines, percentage of lines whose loss exceeds
IS_THRESHOLD)`. `line[-1]` on an empty line is an IndexError. -/
noncomputable def generate_from_one_batch
    (propagate_multiple_lines : List (List Vec3R) → List (List Vec3R))
    (tracking_phase_nb_steps_init : Nat) (lines : List (List Vec3R)) :
    Except String (ℝ × Nat × ℝ) :=
  match lines.mapM List.getLast? with
  | none => Except.error "IndexError: index -1 is out of bounds"
  | some last_pos =>
    let truncated := lines.map
      (fun s => s.take (min s.length tracking_phase_nb_steps_init))
    let gen := propagate_multiple_lines truncated
    match gen.mapM List.getLast? with
    | none => Except.error "IndexError: index -1 is out of bounds"
    | some computed_last_pos =>
      let loss := List.zipWith pairwise_distance computed_last_pos last_pos
      Except.ok (mean_list loss, gen.length,
        (count_invalid loss : ℝ) / (gen.length : ℝ) * 100)

theorem generate_from_one_batch_single
    (f : List (List Vec3R) → List (List Vec3R)) (nb : Nat)
    (L G : List Vec3R) (p q : Vec3R) (hL : L.getLast? = some p)
    (hf : f [L.take (min L.length nb)] = [G]) (hG : G.getLast? = some q) :
    generate_from_one_batch f nb [L]
      = Except.ok (mean_list [pairwise_distance q p], 1,
          (count_invalid [pairwise_distance q p] : ℝ) / 1 * 100) := by
  have h1 : [L].mapM List.getLast? = some [p] := by
    simp [List.mapM, List.mapM.loop, hL]
  have h2 : [G].mapM List.getLast? = some [q] := by
    simp [List.mapM, List.mapM.loop, hG]
  unfold generate_from_one_batch
  rw [h1]
  simp only [List.map_cons, List.map_nil, hf, h2, List.zipWith_cons_cons,
    List.zipWith_nil_right, List.length_cons, List.length_nil, Nat.cast_one]
  norm_num

/-- C4 counterexample: a single-line batch whose generated final point lies
at exact Euclidean distance 25.98 (= the threshold, hence NOT exceeding it)
from the ground-truth final point. The claim as stated predicts an IS ratio
of 0; the code computes the eps-perturbed PairwiseDistance
`sqrt((25.98 + 1e-6)^2 + (1e-6)^2 + (1e-6)^2) > 25.98` and reports 100. -/
theorem claim_C4_counterexample :
    euclidean_distance ⟨25.98, 0, 0⟩ ⟨0, 0, 0⟩ ≤ IS_THRESHOLD
    ∧ Except.map (fun r : ℝ × Nat × ℝ => (r.2.1, r.2.2))
        (generate_from_one_batch (fun _ => [[⟨25.98, 0, 0⟩]]) 5 [[⟨0, 0, 0⟩]])
      = Except.ok (1, 100) := by
  constructor
  · have heq : euclidean_distance ⟨25.98, 0, 0⟩ ⟨0, 0, 0⟩ = 25.98 := by
      rw [euclidean_distance]
      rw [show ((25.98 : ℝ) - 0) ^ 2 + ((0 : ℝ) - 0) ^ 2 + ((0 : ℝ) - 0) ^ 2
        = 25.98 ^ 2 by norm_num]
      exact Real.sqrt_sq (by norm_num)
    rw [heq, IS_THRESHOLD]
  · have hd : IS_THRESHOLD
        < pairwise_distance ⟨25.98, 0, 0⟩ ⟨0, 0, 0⟩ := by
      rw [pairwise_distance]
      simp only [IS_THRESHOLD, pdist_eps]
      refine (Real.lt_sqrt (by norm_num)).mpr ?_
      norm_num
    have hcount : count_invalid [pairwise_distance ⟨25.98, 0, 0⟩ ⟨0, 0, 0⟩]
        = 1 := by
      simp [count_invalid, hd]
    rw [generate_from_one_batch_single (fun _ => [[⟨25.98, 0, 0⟩]]) 5
      [⟨0, 0, 0⟩] [⟨25.98, 0, 0⟩] ⟨0, 0, 0⟩ ⟨25.98, 0, 0⟩ rfl rfl rfl]
    simp [Except.map, hcount]

/-- C4 amended: a line is counted invalid exactly when the eps-perturbed
distance `norm((gen - gt) + 1e-6)` computed by `torch.nn.PairwiseDistance`
exceeds 25.98, equivalently when its square exceeds `25.98 ^ 2` (part 1).
For a single-line batch: zero final-point divergence gives an IS ratio of 0
(part 2), and a final-point Euclidean distance exceeding the threshold by
more than 1e-3 gives an IS ratio of 100 (part 3); only distances within a
hair of the exact threshold can be classified differently from the
unperturbed Euclidean rule. -/
theorem claim_C4_is_ratio :
    (∀ x1 x2 : Vec3R, IS_THRESHOLD < pairwise_distance x1 x2 ↔
      IS_THRESHOLD ^ 2 < (x1.x - x2.x + pdist_eps) ^ 2
        + (x1.y - x2.y + pdist_eps) ^ 2 + (x1.z - x2.z + pdist_eps) ^ 2)
    ∧ (∀ (f : List (List Vec3R) → List (List Vec3R)) (nb : Nat)
        (L G : List Vec3R) (p : Vec3R), L.getLast? = some p →
        f [L.take (min L.length nb)] = [G] → G.getLast? = some p →
        Except.map (fun r : ℝ × Nat × ℝ => (r.2.1, r.2.2))
          (generate_from_one_batch f nb [L]) = Except.ok (1, 0))
    ∧ (∀ (f : List (List Vec3R) → List (List Vec3R)) (nb : Nat)
        (L G : List Vec3R) (p q : Vec3R), L.getLast? = some p →
        f [L.take (min L.length nb)] = [G] → G.getLast? = some q →
        IS_THRESHOLD + 1e-3 < euclidean_distance q p →
        Except.map (fun r : ℝ × Nat × ℝ => (r.2.1, r.2.2))
          (generate_from_one_batch f nb [L]) = Except.ok (1, 100)) := by
  refine ⟨?_, ?_, ?_⟩
  · intro x1 x2
    rw [pairwise_distance]
    exact Real.lt_sqrt (by rw [IS_THRESHOLD]; norm_num)
  · intro f nb L G p hL hf hG
    have hle : pairwise_distance p p ≤ IS_THRESHOLD := by
      rw [pairwise_distance]
      refine Real.sqrt_le_iff.mpr
        ⟨by rw [IS_THRESHOLD]; norm_num, ?_⟩
      simp only [sub_self, zero_add, pdist_eps, IS_THRESHOLD]
      norm_num
    have hcount : count_invalid [pairwise_distance p p] = 0 := by
      simp [count_invalid, not_lt.mpr hle]
    rw [generate_from_one_batch_single f nb L G p p hL hf hG]
    simp [Except.map, hcount]
  · intro f nb L G p q hL hf hG hfar
    have hS_nonneg : 0 ≤ (q.x - p.x) ^ 2 + (q.y - p.y) ^ 2 + (q.z - p.z) ^ 2 := by
      positivity
    have hr_sq : Real.sqrt ((q.x - p.x) ^ 2 + (q.y - p.y) ^ 2 + (q.z - p.z) ^ 2)
        * Real.sqrt ((q.x - p.x) ^ 2 + (q.y - p.y) ^ 2 + (q.z - p.z) ^ 2)
        = (q.x - p.x) ^ 2 + (q.y - p.y) ^ 2 + (q.z - p.z) ^ 2 :=
      Real.mul_self_sqrt hS_nonneg
    have hfar2 : IS_THRESHOLD + 1e-3
        < Real.sqrt ((q.x - p.x) ^ 2 + (q.y - p.y) ^ 2 + (q.z - p.z) ^ 2) := by
      rw [euclidean_distance] at hfar
      exact hfar
    have hd : IS_THRESHOLD < pairwise_distance q p := by
      rw [pairwise_distance]
      refine (Real.lt_sqrt (by rw [IS_THRESHOLD]; norm_num)).mpr ?_
      set r := Real.sqrt ((q.x - p.x) ^ 2 + (q.y - p.y) ^ 2 + (q.z - p.z) ^ 2)
        with hrdef
      have hrT : IS_THRESHOLD + 1e-3 < r := hfar2
      have hrpos : 0 < r := by
        have : (0 : ℝ) < IS_THRESHOLD + 1e-3 := by rw [IS_THRESHOLD]; norm_num
        linarith
      have hdx : -r ≤ q.x - p.x := by
        by_contra hcon
        push_neg at hcon
        have ha : 0 < -(q.x - p.x) - r := by linarith
        have hb : 0 < -(q.x - p.x) + r := by linarith
        nlinarith [mul_pos ha hb, sq_nonneg (q.y - p.y), sq_nonneg (q.z - p.z),
          hr_sq]
      have hdy : -r ≤ q.y - p.y := by
        by_contra hcon
        push_neg at hcon
        have ha : 0 < -(q.y - p.y) - r := by linarith
        have hb : 0 < -(q.y - p.y) + r := by linarith
        nlinarith [mul_pos ha hb, sq_nonneg (q.x - p.x), sq_nonneg (q.z - p.z),
          hr_sq]
      have hdz : -r ≤ q.z - p.z := by
        by_contra hcon
        push_neg at hcon
        have ha : 0 < -(q.z - p.z) - r := by linarith
        have hb : 0 < -(q.z - p.z) + r := by linarith
        nlinarith [mul_pos ha hb, sq_nonneg (q.x - p.x), sq_nonneg (q.y - p.y),
          hr_sq]
      rw [IS_THRESHOLD] at hrT
      have h1 : (0 : ℝ) < r - 25.981 := by linarith
      simp only [IS_THRESHOLD, pdist_eps] at hrT ⊢
      nlinarith [hr_sq, hrT, hdx, hdy, hdz, hrpos, h1, mul_pos h1 hrpos,
        mul_pos h1 h1]
    have hcount : count_invalid [pairwise_distance q p] = 1 := by
      simp [count_invalid, hd]
    rw [generate_from_one_batch_single f nb L G p q hL hf hG]
    simp [Except.map, hcount]

/-- Witness for C4 amended: a one-point ground-truth line regenerated
exactly (zero divergence) has IS ratio 0; and the equivalence of part 1
instantiated at the counterexample points. -/
theorem claim_C4_witness :
    Except.map (fun r : ℝ × Nat × ℝ => (r.2.1, r.2.2))
        (generate_from_one_batch (fun _ => [[⟨0, 0, 0⟩]]) 5 [[⟨0, 0, 0⟩]])
      = Except.ok (1, 0) := by
  exact claim_C4_is_ratio.2.1 (fun _ => [[⟨0, 0, 0⟩]]) 5
    [⟨0, 0, 0⟩] [⟨0, 0, 0⟩] ⟨0, 0, 0⟩ rfl rfl rfl
